import Mathlib

/-!
Verification of the data-exploration core of the ml4h-project01 repository
(notebook src/notebooks/data-exploration.ipynb).

The notebook works on pandas data frames.  We embed the frames touched by the
claims as lists of rows over exact rationals: a missing observation (NaN) is
`Option.none`, and the pandas/numpy aggregation semantics relevant here
(group medians and quantiles with linear interpolation, NaN-skipping `max`,
NaN-propagating `np.max`, NaN-comparisons being false) are modelled
explicitly, definition by definition, from the source lines they embed.
-/

namespace ML4H

/-- A row of the projected frame `data[['Hour', variable]]` that both renderers
work on: the hour bucket and the (possibly missing) value of the one chosen
variable.  A pandas NaN cell is `none`. -/
structure Row where
  hour : ℕ
  value : Option ℚ
deriving DecidableEq, Repr

/-- The non-missing values of the variable inside one hour group: pandas
groupby aggregations (`median`, `quantile`) skip NaN entries. -/
def groupVals (data : List Row) (h : ℕ) : List ℚ :=
  (data.filter (fun r => r.hour == h)).filterMap (fun r => r.value)

/-- Sorting step of the pandas quantile/median computation. -/
def sortQ (xs : List ℚ) : List ℚ :=
  List.insertionSort (· ≤ ·) xs

/-- Linear interpolation into the sorted sample `s` at fractional position `p`
(numpy's default `linear` method): with `j = ⌊p⌋` and `γ = p - j` the value is
`v_j + γ * (v_(j+1) - v_j)`.  The out-of-range default for `v_(j+1)` is `v_j`,
which is only ever read with coefficient `γ = 0`. -/
def interpAt (s : List ℚ) (p : ℚ) : ℚ :=
  s.getD (Int.floor p).toNat 0 +
    (p - ((Int.floor p).toNat : ℚ)) *
      (s.getD ((Int.floor p).toNat + 1) (s.getD (Int.floor p).toNat 0) -
        s.getD (Int.floor p).toNat 0)

/-- pandas `Series.quantile(q)`: NaN on an all-missing sample, otherwise linear
interpolation at position `q * (n - 1)` into the sorted non-missing values. -/
def quantile (q : ℚ) (xs : List ℚ) : Option ℚ :=
  if xs = [] then none
  else some (interpAt (sortQ xs) (q * ((xs.length : ℚ) - 1)))

/-- pandas `median`, the 0.5 quantile with linear interpolation. -/
def median (xs : List ℚ) : Option ℚ :=
  quantile (1/2) xs

/-- One row of the centering step
`df[variable] = df[variable] - df.groupby('Hour')[variable].transform('median')`:
a missing observation stays missing, and subtracting a NaN group median (the
group has no non-missing entry) also yields NaN. -/
def centerRow (data : List Row) (r : Row) : Row :=
  match r.value, median (groupVals data r.hour) with
  | some v, some m => ⟨r.hour, some (v - m)⟩
  | _, _ => ⟨r.hour, none⟩

/-- The centered frame produced by the `boxplotTimeSeries` centering step. -/
def centered (data : List Row) : List Row :=
  data.map (centerRow data)

/-- The row filter
`pd.isna(df[variable]) | (df[variable] >= df['quantile_low']) & (df[variable] <= df['quantile_high'])`
on the centered frame `c`: the quantile columns are the per-hour 0.025/0.975
quantile transforms of the centered values, and a comparison against a NaN
quantile is false. -/
def keepRow (c : List Row) (r : Row) : Bool :=
  match r.value with
  | none => true
  | some v =>
    match quantile (1/40) (groupVals c r.hour),
        quantile (39/40) (groupVals c r.hour) with
    | some ql, some qh => decide (ql ≤ v ∧ v ≤ qh)
    | _, _ => false

/-- The frame kept by `boxplotTimeSeries` after centering and the
quantile-band row filter `df = df[...]`. -/
def trimmed (data : List Row) : List Row :=
  (centered data).filter (keepRow (centered data))

/-- pandas `Series.max()` with the default `skipna=True`: NaN (`none`) exactly
when the series has no non-missing entry. -/
def seriesMax (xs : List (Option ℚ)) : Option ℚ :=
  match xs.filterMap id with
  | [] => none
  | v :: vs => some (vs.foldl max v)

/-- numpy `np.max((a, b))` where `a` may be NaN: `np.max` propagates NaN. -/
def npMax (a : Option ℚ) (b : ℚ) : Option ℚ :=
  match a with
  | none => none
  | some x => some (max x b)

/-- The symmetric axis bound
`y_abs_max = np.max((np.abs(df[variable]).max(), 0.05))` computed by
`boxplotTimeSeries` on the trimmed frame, with 0.05 written exactly as 1/20. -/
def yAbsMax (data : List Row) : Option ℚ :=
  npMax (seriesMax ((trimmed data).map (fun r => r.value.map (fun v => |v|)))) (1/20)

/-- The rows of one hour group. -/
def hourRows (data : List Row) (h : ℕ) : List Row :=
  data.filter (fun r => r.hour == h)

/-- Per-hour sum of the indicator column
`df['missing'] = df[variable].isna().astype(int)` in `missingHeatMap`. -/
def missingSum (data : List Row) (h : ℕ) : ℕ :=
  ((hourRows data h).map (fun r => if r.value.isNone then 1 else 0)).sum

/-- Per-hour `count` aggregation of the `missing` column: that column has no
NaN entry, so the count is the full size of the hour group. -/
def groupCount (data : List Row) (h : ℕ) : ℕ :=
  (hourRows data h).length

/-- The heatmap cell `grouped['pct_missing'] = grouped['sum'] / grouped['count']`
for one hour group. -/
def pctMissing (data : List Row) (h : ℕ) : ℚ :=
  (missingSum data h : ℚ) / (groupCount data h : ℚ)

/-- The distinct hour keys of the frame in ascending order, as produced by
pandas `groupby('Hour')` (group keys are sorted). -/
def hoursOf (data : List Row) : List ℕ :=
  List.insertionSort (· ≤ ·) (data.map (fun r => r.hour)).dedup

/-- The single-row heatmap table of `missingHeatMap`: the missing fraction per
hour key. -/
def missingHeatMap (data : List Row) : List (ℕ × ℚ) :=
  (hoursOf data).map (fun h => (h, pctMissing data h))

end ML4H

namespace ML4H

/-- The three fixed partition names of `loadData`. -/
def partitionNames : List String :=
  ["a", "b", "c"]

/-- The feature-file path `DATA_DIR/set-<s>.parquet.gzip` of a partition. -/
def featuresPath (dataDir s : String) : String :=
  dataDir ++ "/" ++ ("set-" ++ s ++ ".parquet.gzip")

/-- The label-file path `DATA_DIR/set-<s>-outcomes.parquet.gzip` of a
partition. -/
def labelsPath (dataDir s : String) : String :=
  dataDir ++ "/" ++ ("set-" ++ s ++ "-outcomes.parquet.gzip")

/-- pandas `read_parquet`: the file system is a partial map from paths to
parsed tables, and a missing file raises `FileNotFoundError`. -/
def read_parquet {α : Type} (fs : String → Option α) (p : String) :
    Except String α :=
  match fs p with
  | some df => Except.ok df
  | none => Except.error ("FileNotFoundError: " ++ p)

/-- The loop body of `loadData` over a list of partition names: per partition
the feature file is read, then the label file, and the pair is appended; a
raised `FileNotFoundError` propagates and discards the local list. -/
def loadDataAux {α : Type} (fs : String → Option α) (dataDir : String) :
    List String → Except String (List (α × α))
  | [] => Except.ok []
  | s :: rest => do
    let dfFeatures ← read_parquet fs (featuresPath dataDir s)
    let dfLabels ← read_parquet fs (labelsPath dataDir s)
    let tail ← loadDataAux fs dataDir rest
    pure ((dfFeatures, dfLabels) :: tail)

/-- The notebook function `loadData`, run over the fixed partition names
a, b, c. -/
def loadData {α : Type} (fs : String → Option α) (dataDir : String) :
    Except String (List (α × α)) :=
  loadDataAux fs dataDir partitionNames

/-- A run of `loadData` together with the list of log records its body emits.
The body of `loadData` in the source contains no `logger` call at all, so the
emitted-record list is empty; the reads of `fs` are its only effects. -/
def loadDataRun {α : Type} (fs : String → Option α) (dataDir : String) :
    Except String (List (α × α)) × List String :=
  (loadDataAux fs dataDir partitionNames, [])

/-- Configuration of the file handler installed by the logging setup cell:
`logging.FileHandler(log_file, mode='w')` on `LOG_DIR/data-exploration.log`,
with level `logging.DEBUG` (the numeric value 10).  Mode `w` truncates, so
each run recreates the file instead of appending. -/
structure FileHandlerCfg where
  path : String
  mode : String
  level : ℕ
deriving DecidableEq, Repr

/-- The file handler built by the logging setup cell. -/
def setupFileHandler (logDir : String) : FileHandlerCfg :=
  ⟨logDir ++ "/" ++ "data-exploration.log", "w", 10⟩

end ML4H

namespace ML4H

/-!
State-passing model of the two renderer bodies, for the frame-effect claim:
the caller's table is one binding (`data`), the working frame is another
(`df`), and every assignment statement of the source writes only `df` (or a
fresh frame), never `data`, because the body starts with
`df = data[['Hour', variable]].copy(deep=True)`.
-/

/-- A row of the boxplot working frame once the two quantile columns have been
assigned; before the assignment the column is absent, modelled as `none`. -/
structure DfRow where
  hour : ℕ
  value : Option ℚ
  quantile_low : Option ℚ
  quantile_high : Option ℚ
deriving DecidableEq, Repr

/-- The bindings live inside the body of `boxplotTimeSeries`. -/
structure BoxplotState where
  data : List Row
  df : List DfRow
deriving DecidableEq, Repr

/-- The non-missing values of one hour group of the working frame. -/
def dfGroupVals (df : List DfRow) (h : ℕ) : List ℚ :=
  (df.filter (fun r => r.hour == h)).filterMap (fun r => r.value)

/-- Statement `df = data[['Hour', variable]].copy(deep=True)`. -/
def boxplotCopy (data : List Row) : BoxplotState :=
  ⟨data, data.map (fun r => ⟨r.hour, r.value, none, none⟩)⟩

/-- Statement `df[variable] = df[variable] - medians` with
`medians = df.groupby('Hour')[variable].transform('median')`. -/
def boxplotCenter (st : BoxplotState) : BoxplotState :=
  ⟨st.data, st.df.map (fun r =>
    { r with value :=
        match r.value, median (dfGroupVals st.df r.hour) with
        | some v, some m => some (v - m)
        | _, _ => none })⟩

/-- Statement `df['quantile_low'] = df.groupby('Hour')[variable].transform('quantile', 0.025)`. -/
def boxplotQuantileLow (st : BoxplotState) : BoxplotState :=
  ⟨st.data, st.df.map (fun r =>
    { r with quantile_low := quantile (1/40) (dfGroupVals st.df r.hour) })⟩

/-- Statement `df['quantile_high'] = df.groupby('Hour')[variable].transform('quantile', 0.975)`. -/
def boxplotQuantileHigh (st : BoxplotState) : BoxplotState :=
  ⟨st.data, st.df.map (fun r =>
    { r with quantile_high := quantile (39/40) (dfGroupVals st.df r.hour) })⟩

/-- Statement `df = df[pd.isna(df[v]) | (df[v] >= df['quantile_low']) & (df[v] <= df['quantile_high'])]`,
comparing each row against its stored quantile columns; comparisons involving
NaN (or an absent column value) are false. -/
def boxplotTrim (st : BoxplotState) : BoxplotState :=
  ⟨st.data, st.df.filter (fun r =>
    r.value.isNone ||
      ((match r.value, r.quantile_low with
        | some v, some ql => decide (ql ≤ v)
        | _, _ => false) &&
       (match r.value, r.quantile_high with
        | some v, some qh => decide (v ≤ qh)
        | _, _ => false)))⟩

/-- The whole data transformation of the `boxplotTimeSeries` body, statement
by statement. -/
def boxplotPipeline (data : List Row) : BoxplotState :=
  boxplotTrim (boxplotQuantileHigh (boxplotQuantileLow (boxplotCenter (boxplotCopy data))))

/-- A row of the heatmap working frame after the statement
`df['missing'] = df[variable].isna().astype(int)`. -/
structure HeatRow where
  hour : ℕ
  value : Option ℚ
  missing : ℕ
deriving DecidableEq, Repr

/-- The bindings live inside the body of `missingHeatMap`: the caller's table,
the deep copy, the copy with the `missing` column, the grouped
`agg(['sum', 'count'])` frame, and the grouped frame with the `pct_missing`
column. -/
structure HeatState where
  data : List Row
  df : List Row
  dfm : List HeatRow
  grouped : List (ℕ × ℕ × ℕ)
  groupedPct : List (ℕ × ℕ × ℕ × ℚ)
deriving DecidableEq, Repr

/-- Statement `df = data[['Hour', variable]].copy(deep=True)` of `missingHeatMap`. -/
def heatCopy (data : List Row) : HeatState :=
  ⟨data, data.map (fun r => r), [], [], []⟩

/-- Statement `df['missing'] = df[variable].isna().astype(int)`. -/
def heatAddMissing (st : HeatState) : HeatState :=
  { st with dfm := st.df.map (fun r => ⟨r.hour, r.value, if r.value.isNone then 1 else 0⟩) }

/-- Statement `grouped = df.groupby('Hour')['missing'].agg(['sum', 'count'])`. -/
def heatGroup (st : HeatState) : HeatState :=
  { st with grouped :=
      (List.insertionSort (· ≤ ·) (st.dfm.map (fun r => r.hour)).dedup).map (fun h =>
        (h, ((st.dfm.filter (fun r => r.hour == h)).map (fun r => r.missing)).sum,
          (st.dfm.filter (fun r => r.hour == h)).length)) }

/-- Statement `grouped['pct_missing'] = grouped['sum'] / grouped['count']`,
writing the fresh grouped frame, not the input table. -/
def heatPct (st : HeatState) : HeatState :=
  { st with groupedPct := st.grouped.map (fun g => (g.1, g.2.1, g.2.2, (g.2.1 : ℚ) / (g.2.2 : ℚ))) }

/-- The whole data transformation of the `missingHeatMap` body, statement by
statement. -/
def heatPipeline (data : List Row) : HeatState :=
  heatPct (heatGroup (heatAddMissing (heatCopy data)))

end ML4H

namespace ML4H

/-!
Model of the matplotlib objects the stacked entry points manipulate, at the
granularity the code uses them: `plt.subplots(nrows=n, ncols=1)` with the
default `squeeze=True` hands back a bare `Axes` object when `n = 1` and an
array of `n` axes otherwise; indexing a bare `Axes` raises `TypeError`; and
`fig.subplots_adjust(hspace=0.2, top=1 - 1/n)` evaluates `1 / n`, which raises
`ZeroDivisionError` when `n = 0` (a matplotlib release that already rejects
`nrows=0` inside `plt.subplots` merely fails one statement earlier).
-/

/-- Result of `plt.subplots(nrows=n, ncols=1)` under the default `squeeze=True`. -/
inductive AxesObj where
  | single
  | array (n : ℕ)
deriving DecidableEq, Repr

/-- The call `plt.subplots(nrows=n, ncols=1)`. -/
def pltSubplots (n : ℕ) : AxesObj :=
  if n = 1 then AxesObj.single else AxesObj.array n

/-- The subscript `axes[i]`: a bare `Axes` object is not subscriptable. -/
def indexAxes : AxesObj → ℕ → Except String ℕ
  | AxesObj.single, _ => Except.error "TypeError: Axes object is not subscriptable"
  | AxesObj.array n, i =>
      if i < n then Except.ok i else Except.error "IndexError: axes index out of range"

/-- The call `fig.subplots_adjust(hspace=0.2, top=1 - 1/n)`. -/
def subplotsAdjust (n : ℕ) : Except String Unit :=
  if n = 0 then Except.error "ZeroDivisionError: division by zero" else Except.ok ()

/-- The data artifacts of one `boxplotTimeSeries` subplot: the plotted frame
and the symmetric y-axis bound. -/
def boxplotTimeSeries (data : List Row) : List Row × Option ℚ :=
  (trimmed data, yAbsMax data)

/-- The loop `for i, variable in enumerate(variables)` of
`boxPlotTimeSeriesMultiple`: each iteration first subscripts the axes object,
then renders one variable. -/
def renderBoxAxes (dataOf : String → List Row) (axes : AxesObj) :
    List (ℕ × String) → Except String (List (List Row × Option ℚ))
  | [] => Except.ok []
  | (i, v) :: rest => do
    let _ax ← indexAxes axes i
    let tail ← renderBoxAxes dataOf axes rest
    pure (boxplotTimeSeries (dataOf v) :: tail)

/-- The stacked entry point `boxPlotTimeSeriesMultiple(data, variables)`,
where `dataOf v` is the projection `data[['Hour', v]]` of the feature table to
one variable. -/
def boxPlotTimeSeriesMultiple (dataOf : String → List Row) (vars : List String) :
    Except String (List (List Row × Option ℚ)) := do
  let n := vars.length
  let axes := pltSubplots n
  let plots ← renderBoxAxes dataOf axes vars.enum
  let _ ← subplotsAdjust n
  pure plots

/-- The loop of `missingHeatMapMultiple`: each iteration subscripts the axes
object, then renders one missingness strip. -/
def renderHeatAxes (dataOf : String → List Row) (axes : AxesObj) :
    List (ℕ × String) → Except String (List (List (ℕ × ℚ)))
  | [] => Except.ok []
  | (i, v) :: rest => do
    let _ax ← indexAxes axes i
    let tail ← renderHeatAxes dataOf axes rest
    pure (missingHeatMap (dataOf v) :: tail)

/-- The stacked entry point `missingHeatMapMultiple(data, variables)`. -/
def missingHeatMapMultiple (dataOf : String → List Row) (vars : List String) :
    Except String (List (List (ℕ × ℚ))) := do
  let n := vars.length
  let axes := pltSubplots n
  let strips ← renderHeatAxes dataOf axes vars.enum
  let _ ← subplotsAdjust n
  pure strips

end ML4H

namespace ML4H

/-! Supporting lemmas about the sorted-sample quantile. -/

lemma sortQ_sorted (xs : List ℚ) : (sortQ xs).Sorted (· ≤ ·) :=
  List.sorted_insertionSort _ xs

lemma sortQ_length (xs : List ℚ) : (sortQ xs).length = xs.length :=
  List.length_insertionSort _ xs

lemma quantile_isSome (q : ℚ) {xs : List ℚ} (h : xs ≠ []) :
    ∃ y, quantile q xs = some y := by
  rw [quantile, if_neg h]
  exact ⟨_, rfl⟩

lemma floor_toNat_lt_length {p : ℚ} {n : ℕ} (hp0 : 0 ≤ p) (hpn : p ≤ (n : ℚ) - 1) :
    (Int.floor p).toNat < n := by
  have h1 : Int.floor p ≤ Int.floor ((n : ℚ) - 1) := Int.floor_le_floor hpn
  have h2 : Int.floor ((n : ℚ) - 1) = (n : ℤ) - 1 := by
    rw [show ((n : ℚ) - 1) = (((n : ℤ) - 1 : ℤ) : ℚ) by push_cast; ring, Int.floor_intCast]
  have h3 : Int.floor p ≤ (n : ℤ) - 1 := h2 ▸ h1
  have hn : (1 : ℤ) ≤ (n : ℤ) := by
    have hq : (1 : ℚ) ≤ (n : ℚ) := by linarith
    exact_mod_cast hq
  omega

lemma floor_toNat_cast {p : ℚ} (hp0 : 0 ≤ p) :
    (((Int.floor p).toNat : ℕ) : ℚ) = ((Int.floor p : ℤ) : ℚ) := by
  exact_mod_cast congrArg (fun z : ℤ => (z : ℚ)) (Int.toNat_of_nonneg (Int.floor_nonneg.2 hp0))

lemma gamma_nonneg {p : ℚ} (hp0 : 0 ≤ p) : 0 ≤ p - ((Int.floor p).toNat : ℚ) := by
  rw [floor_toNat_cast hp0]
  have := Int.floor_le p
  linarith

lemma gamma_lt_one {p : ℚ} (hp0 : 0 ≤ p) : p - ((Int.floor p).toNat : ℚ) < 1 := by
  rw [floor_toNat_cast hp0]
  have := Int.lt_floor_add_one p
  linarith

lemma sorted_getD_mono {s : List ℚ} (hs : s.Sorted (· ≤ ·)) {i j : ℕ} (d e : ℚ)
    (hij : i ≤ j) (hj : j < s.length) : s.getD i d ≤ s.getD j e := by
  have hi : i < s.length := Nat.lt_of_le_of_lt hij hj
  rw [List.getD_eq_getElem s d hi, List.getD_eq_getElem s e hj]
  have := hs.rel_get_of_le (a := ⟨i, hi⟩) (b := ⟨j, hj⟩) hij
  simpa using this

lemma getD_next_ge {s : List ℚ} (hs : s.Sorted (· ≤ ·)) {j : ℕ} (_hj : j < s.length) :
    s.getD j 0 ≤ s.getD (j + 1) (s.getD j 0) := by
  by_cases h : j + 1 < s.length
  · exact sorted_getD_mono hs 0 (s.getD j 0) (Nat.le_succ j) h
  · rw [List.getD_eq_default s _ (not_lt.1 h)]

lemma interp_bounds {a b γ : ℚ} (hab : a ≤ b) (h0 : 0 ≤ γ) (h1 : γ ≤ 1) :
    a ≤ a + γ * (b - a) ∧ a + γ * (b - a) ≤ b := by
  constructor <;> nlinarith

lemma interpAt_mono {s : List ℚ} (hs : s.Sorted (· ≤ ·)) {p q : ℚ}
    (hp0 : 0 ≤ p) (hpq : p ≤ q) (hq : q ≤ (s.length : ℚ) - 1) :
    interpAt s p ≤ interpAt s q := by
  have hq0 : 0 ≤ q := le_trans hp0 hpq
  have hjlt : (Int.floor p).toNat < s.length :=
    floor_toNat_lt_length hp0 (le_trans hpq hq)
  have hjlt' : (Int.floor q).toNat < s.length := floor_toNat_lt_length hq0 hq
  have hjj : (Int.floor p).toNat ≤ (Int.floor q).toNat := by
    have := Int.floor_le_floor hpq
    omega
  have habp := getD_next_ge hs hjlt
  have habq := getD_next_ge hs hjlt'
  by_cases hcase : (Int.floor p).toNat = (Int.floor q).toNat
  · unfold interpAt
    rw [← hcase]
    have hgg : p - (((Int.floor p).toNat : ℕ) : ℚ) ≤ q - (((Int.floor p).toNat : ℕ) : ℚ) := by
      linarith
    nlinarith [mul_le_mul_of_nonneg_right hgg (sub_nonneg.2 habp)]
  · have hlt : (Int.floor p).toNat < (Int.floor q).toNat := lt_of_le_of_ne hjj hcase
    have upper := (interp_bounds habp (gamma_nonneg hp0) (le_of_lt (gamma_lt_one hp0))).2
    have lower := (interp_bounds habq (gamma_nonneg hq0) (le_of_lt (gamma_lt_one hq0))).1
    have mid : s.getD ((Int.floor p).toNat + 1) (s.getD (Int.floor p).toNat 0)
        ≤ s.getD (Int.floor q).toNat 0 :=
      sorted_getD_mono hs _ 0 hlt hjlt'
    calc interpAt s p ≤ s.getD ((Int.floor p).toNat + 1) (s.getD (Int.floor p).toNat 0) := upper
      _ ≤ s.getD (Int.floor q).toNat 0 := mid
      _ ≤ interpAt s q := lower

lemma quantile_mono {q q' : ℚ} {xs : List ℚ} {a b : ℚ}
    (hq0 : 0 ≤ q) (hqq : q ≤ q') (hq1 : q' ≤ 1)
    (ha : quantile q xs = some a) (hb : quantile q' xs = some b) : a ≤ b := by
  by_cases hxs : xs = []
  · rw [quantile, if_pos hxs] at ha
    cases ha
  · rw [quantile, if_neg hxs] at ha hb
    have hn : 1 ≤ xs.length := List.length_pos.2 hxs
    have hL : 0 ≤ (xs.length : ℚ) - 1 := by
      have hc : (1 : ℚ) ≤ (xs.length : ℚ) := by exact_mod_cast hn
      linarith
    have hmono : interpAt (sortQ xs) (q * ((xs.length : ℚ) - 1))
        ≤ interpAt (sortQ xs) (q' * ((xs.length : ℚ) - 1)) := by
      apply interpAt_mono (sortQ_sorted xs) (mul_nonneg hq0 hL)
        (mul_le_mul_of_nonneg_right hqq hL)
      rw [sortQ_length]
      exact mul_le_of_le_one_left hL hq1
    simp only [Option.some.injEq] at ha hb
    subst ha
    subst hb
    exact hmono

lemma sortQ_map_sub (xs : List ℚ) (m : ℚ) :
    sortQ (xs.map (fun v => v - m)) = (sortQ xs).map (fun v => v - m) := by
  rw [sortQ, sortQ, ← List.map_insertionSort (· ≤ ·) (· ≤ ·) (fun v => v - m) xs]
  intro a _ b _
  simp

lemma interpAt_map_sub {s : List ℚ} (m p : ℚ) (hjlt : (Int.floor p).toNat < s.length) :
    interpAt (s.map (fun v => v - m)) p = interpAt s p - m := by
  have hmlen : (Int.floor p).toNat < (s.map (fun v => v - m)).length := by simpa using hjlt
  have h1 : (s.map (fun v => v - m)).getD (Int.floor p).toNat 0
      = s.getD (Int.floor p).toNat 0 - m := by
    rw [List.getD_eq_getElem _ 0 hmlen, List.getD_eq_getElem s 0 hjlt, List.getElem_map]
  by_cases h2 : (Int.floor p).toNat + 1 < s.length
  · have hm2 : (Int.floor p).toNat + 1 < (s.map (fun v => v - m)).length := by simpa using h2
    have h3 : ∀ d : ℚ, (s.map (fun v => v - m)).getD ((Int.floor p).toNat + 1) d
        = s.getD ((Int.floor p).toNat + 1) 0 - m := by
      intro d
      rw [List.getD_eq_getElem _ d hm2, List.getD_eq_getElem s 0 h2, List.getElem_map]
    have h4 : ∀ d : ℚ, s.getD ((Int.floor p).toNat + 1) d
        = s.getD ((Int.floor p).toNat + 1) 0 := by
      intro d
      rw [List.getD_eq_getElem s d h2, List.getD_eq_getElem s 0 h2]
    unfold interpAt
    rw [h1, h3, h4 (s.getD (Int.floor p).toNat 0)]
    ring
  · have hge : s.length ≤ (Int.floor p).toNat + 1 := not_lt.1 h2
    have hmge : (s.map (fun v => v - m)).length ≤ (Int.floor p).toNat + 1 := by simpa using hge
    unfold interpAt
    rw [h1, List.getD_eq_default _ _ hmge, List.getD_eq_default s _ hge]
    ring

lemma quantile_map_sub (q m : ℚ) (xs : List ℚ) (hq0 : 0 ≤ q) (hq1 : q ≤ 1) :
    quantile q (xs.map (fun v => v - m)) = (quantile q xs).map (fun v => v - m) := by
  by_cases hxs : xs = []
  · subst hxs
    rfl
  · have hmne : xs.map (fun v => v - m) ≠ [] := by simpa using hxs
    rw [quantile, quantile, if_neg hxs, if_neg hmne, Option.map_some', List.length_map]
    have hn : 1 ≤ xs.length := List.length_pos.2 hxs
    have hL : 0 ≤ (xs.length : ℚ) - 1 := by
      have hc : (1 : ℚ) ≤ (xs.length : ℚ) := by exact_mod_cast hn
      linarith
    rw [sortQ_map_sub]
    rw [interpAt_map_sub]
    rw [sortQ_length]
    exact floor_toNat_lt_length (mul_nonneg hq0 hL) (mul_le_of_le_one_left hL hq1)

end ML4H

namespace ML4H

/-! Supporting lemmas about centering and group extraction. -/

lemma centerRow_hour (data : List Row) (r : Row) : (centerRow data r).hour = r.hour := by
  rw [centerRow]
  rcases hv : r.value with _ | v <;> rcases hm : median (groupVals data r.hour) with _ | m <;> simp

lemma mem_groupVals {l : List Row} {r : Row} {v : ℚ}
    (hr : r ∈ l) (hv : r.value = some v) : v ∈ groupVals l r.hour := by
  rw [groupVals]
  exact List.mem_filterMap.2 ⟨r, List.mem_filter.2 ⟨hr, by simp⟩, hv⟩

lemma groupVals_centered (data : List Row) (h : ℕ) (m : ℚ)
    (hm : median (groupVals data h) = some m) :
    groupVals (centered data) h = (groupVals data h).map (fun v => v - m) := by
  have key : ∀ l : List Row,
      ((l.map (centerRow data)).filter (fun r => r.hour == h)).filterMap (fun r => r.value)
        = ((l.filter (fun r => r.hour == h)).filterMap (fun r => r.value)).map
            (fun v => v - m) := by
    intro l
    induction l with
    | nil => rfl
    | cons r t ih =>
      by_cases hr : r.hour = h
      · rcases hv : r.value with _ | v
        · have hc : centerRow data r = ⟨r.hour, none⟩ := by
            simp [centerRow, hv]
          simp [List.filter_cons, hc, hr, hv, ih]
        · have hc : centerRow data r = ⟨r.hour, some (v - m)⟩ := by
            simp [centerRow, hv, hr, hm]
          simp [List.filter_cons, hc, hr, hv, ih]
      · have hch : ¬ ((centerRow data r).hour = h) := by
          rw [centerRow_hour]
          exact hr
        simp [List.filter_cons, hr, hch, ih]
  rw [centered, groupVals, groupVals]
  exact key data

end ML4H

namespace ML4H

lemma keepRow_none {c : List Row} {r : Row} (hv : r.value = none) :
    keepRow c r = true := by
  rw [keepRow, hv]

lemma keepRow_some {c : List Row} {r : Row} {v ql qh : ℚ}
    (hv : r.value = some v)
    (hql : quantile (1/40) (groupVals c r.hour) = some ql)
    (hqh : quantile (39/40) (groupVals c r.hour) = some qh) :
    keepRow c r = decide (ql ≤ v ∧ v ≤ qh) := by
  rw [keepRow, hv, hql, hqh]

lemma le_foldl_max (vs : List ℚ) (v : ℚ) : v ≤ vs.foldl max v := by
  induction vs generalizing v with
  | nil => exact le_refl v
  | cons w ws ih => exact le_trans (le_max_left v w) (ih (max v w))

lemma foldl_max_le {vs : List ℚ} {v x : ℚ} (hx : x ∈ v :: vs) : x ≤ vs.foldl max v := by
  induction vs generalizing v with
  | nil =>
    rw [List.mem_singleton] at hx
    subst hx
    exact le_refl x
  | cons w ws ih =>
    rcases List.mem_cons.1 hx with h | h
    · subst h
      rw [List.foldl_cons]
      exact le_trans (le_max_left x w) (le_foldl_max ws (max x w))
    · rcases List.mem_cons.1 h with h2 | h2
      · subst h2
        rw [List.foldl_cons]
        exact le_trans (le_max_right v x) (le_foldl_max ws (max v x))
      · rw [List.foldl_cons]
        exact ih (List.mem_cons_of_mem _ h2)

lemma foldl_max_mem (vs : List ℚ) (v : ℚ) : vs.foldl max v ∈ v :: vs := by
  induction vs generalizing v with
  | nil => exact List.mem_singleton.2 rfl
  | cons w ws ih =>
    have hm := ih (max v w)
    rcases List.mem_cons.1 hm with h | h
    · rcases max_choice v w with hmax | hmax <;>
        · rw [List.foldl_cons]
          rw [h, hmax]
          simp
    · rw [List.foldl_cons]
      exact List.mem_cons_of_mem _ (List.mem_cons_of_mem _ h)

end ML4H

namespace ML4H

/-- C4: for every feature table, variable, and hour group with at least one
non-missing observation, the median of the non-missing values produced by the
centering step of `boxplotTimeSeries` (before any trimming) is exactly zero. -/
theorem centered_group_median_zero (data : List Row) (h : ℕ)
    (hne : groupVals data h ≠ []) :
    median (groupVals (centered data) h) = some 0 := by
  obtain ⟨m, hm0⟩ := quantile_isSome (1/2) hne
  have hm : median (groupVals data h) = some m := hm0
  rw [groupVals_centered data h m hm, median,
    quantile_map_sub (1/2) m _ (by norm_num) (by norm_num)]
  rw [show quantile (1/2) (groupVals data h) = median (groupVals data h) from rfl, hm]
  simp

/-- Witness for C4 at a concrete two-point hour group. -/
theorem centered_group_median_zero_witness :
    median (groupVals (centered [⟨0, some 1⟩, ⟨0, some 3⟩]) 0) = some 0 :=
  centered_group_median_zero [⟨0, some 1⟩, ⟨0, some 3⟩] 0 (by decide)

end ML4H

namespace ML4H

/-- C10: for every hour group with at least one non-missing observation, the
per-hour trimming band of centered values contains zero (the 0.025 quantile of
the centered group is at most 0 and the 0.975 quantile is at least 0), so the
row filter of `boxplotTimeSeries` keeps every row whose value equals the
median of its hour group. -/
theorem band_contains_zero (data : List Row) (h : ℕ)
    (hne : groupVals data h ≠ []) :
    ∃ m ql qh, median (groupVals data h) = some m ∧
      quantile (1/40) (groupVals (centered data) h) = some ql ∧
      quantile (39/40) (groupVals (centered data) h) = some qh ∧
      ql ≤ 0 ∧ 0 ≤ qh ∧
      ∀ r : Row, r.hour = h → r.value = some m →
        keepRow (centered data) (centerRow data r) = true := by
  obtain ⟨m, hm0⟩ := quantile_isSome (1/2) hne
  have hm : median (groupVals data h) = some m := hm0
  obtain ⟨a, ha⟩ := quantile_isSome (1/40) hne
  obtain ⟨b, hb⟩ := quantile_isSome (39/40) hne
  have hmap := groupVals_centered data h m hm
  have hql : quantile (1/40) (groupVals (centered data) h) = some (a - m) := by
    rw [hmap, quantile_map_sub (1/40) m _ (by norm_num) (by norm_num), ha]
    rfl
  have hqh : quantile (39/40) (groupVals (centered data) h) = some (b - m) := by
    rw [hmap, quantile_map_sub (39/40) m _ (by norm_num) (by norm_num), hb]
    rfl
  have h1 : a ≤ m := quantile_mono (by norm_num) (by norm_num) (by norm_num) ha hm0
  have h2 : m ≤ b := quantile_mono (by norm_num) (by norm_num) (by norm_num) hm0 hb
  refine ⟨m, a - m, b - m, hm, hql, hqh, by linarith, by linarith, ?_⟩
  intro r hr hv
  subst hr
  have hc : centerRow data r = ⟨r.hour, some (m - m)⟩ := by
    simp [centerRow, hv, hm]
  rw [hc]
  rw [keepRow_some (c := centered data) (r := ⟨r.hour, some (m - m)⟩) rfl hql hqh]
  simp only [decide_eq_true_eq]
  constructor <;> linarith

/-- Witness for C10 at a concrete two-point hour group. -/
theorem band_contains_zero_witness :
    ∃ m ql qh, median (groupVals [⟨0, some 1⟩, ⟨0, some 3⟩] 0) = some m ∧
      quantile (1/40) (groupVals (centered [⟨0, some 1⟩, ⟨0, some 3⟩]) 0) = some ql ∧
      quantile (39/40) (groupVals (centered [⟨0, some 1⟩, ⟨0, some 3⟩]) 0) = some qh ∧
      ql ≤ 0 ∧ 0 ≤ qh ∧
      ∀ r : Row, r.hour = 0 → r.value = some m →
        keepRow (centered [⟨0, some 1⟩, ⟨0, some 3⟩]) (centerRow [⟨0, some 1⟩, ⟨0, some 3⟩] r) = true :=
  band_contains_zero [⟨0, some 1⟩, ⟨0, some 3⟩] 0 (by decide)

end ML4H

namespace ML4H

/-- C1: the trimmed frame of `boxplotTimeSeries` is exactly the centered frame
filtered by the quantile-band predicate; a row whose (centered) value is
missing is always kept, and a row is dropped precisely when its non-missing
centered value lies strictly outside the inclusive band between the 0.025 and
0.975 quantiles of the centered values of its hour group. -/
theorem trim_drop_characterization (data : List Row) (r : Row) (hr : r ∈ data) :
    trimmed data = (centered data).filter (keepRow (centered data)) ∧
    ((centerRow data r).value = none → keepRow (centered data) (centerRow data r) = true) ∧
    (keepRow (centered data) (centerRow data r) = false ↔
      ∃ v ql qh, (centerRow data r).value = some v ∧
        quantile (1/40) (groupVals (centered data) r.hour) = some ql ∧
        quantile (39/40) (groupVals (centered data) r.hour) = some qh ∧
        (v < ql ∨ qh < v)) := by
  refine ⟨rfl, fun hnone => keepRow_none hnone, ?_⟩
  have hhour : (centerRow data r).hour = r.hour := centerRow_hour data r
  cases hv : (centerRow data r).value with
  | none =>
    constructor
    · intro hfalse
      rw [keepRow_none hv] at hfalse
      cases hfalse
    · rintro ⟨v, ql, qh, hveq, -, -, -⟩
      cases hveq
  | some v =>
    have hcmem : centerRow data r ∈ centered data := by
      rw [centered]
      exact List.mem_map_of_mem (centerRow data) hr
    have hmem : v ∈ groupVals (centered data) r.hour := by
      have := mem_groupVals hcmem hv
      rw [hhour] at this
      exact this
    have hne : groupVals (centered data) r.hour ≠ [] := by
      intro hnil
      rw [hnil] at hmem
      cases hmem
    obtain ⟨ql, hql⟩ := quantile_isSome (1/40) hne
    obtain ⟨qh, hqh⟩ := quantile_isSome (39/40) hne
    have hkr : keepRow (centered data) (centerRow data r) = decide (ql ≤ v ∧ v ≤ qh) := by
      apply keepRow_some hv
      · rw [hhour]
        exact hql
      · rw [hhour]
        exact hqh
    rw [hkr]
    constructor
    · intro hfalse
      have hnot : ¬ (ql ≤ v ∧ v ≤ qh) := of_decide_eq_false hfalse
      refine ⟨v, ql, qh, rfl, hql, hqh, ?_⟩
      rcases not_and_or.1 hnot with hlt | hgt
      · exact Or.inl (lt_of_not_le hlt)
      · exact Or.inr (lt_of_not_le hgt)
    · rintro ⟨v2, ql2, qh2, hveq, hql2, hqh2, hout⟩
      have hv2 : v2 = v := (Option.some_inj.1 hveq).symm
      have hql3 : ql2 = ql := by
        rw [hql] at hql2
        exact (Option.some_inj.1 hql2).symm
      have hqh3 : qh2 = qh := by
        rw [hqh] at hqh2
        exact (Option.some_inj.1 hqh2).symm
      subst hv2
      subst hql3
      subst hqh3
      apply decide_eq_false
      rintro ⟨hle1, hle2⟩
      rcases hout with hlt | hgt
      · linarith
      · linarith

/-- Witness for C1 at a concrete one-row table. -/
theorem trim_drop_characterization_witness :
    trimmed [⟨0, some 1⟩] =
      (centered [⟨0, some 1⟩]).filter (keepRow (centered [⟨0, some 1⟩])) ∧
    ((centerRow [⟨0, some 1⟩] ⟨0, some 1⟩).value = none →
      keepRow (centered [⟨0, some 1⟩]) (centerRow [⟨0, some 1⟩] ⟨0, some 1⟩) = true) ∧
    (keepRow (centered [⟨0, some 1⟩]) (centerRow [⟨0, some 1⟩] ⟨0, some 1⟩) = false ↔
      ∃ v ql qh, (centerRow [⟨0, some 1⟩] ⟨0, some 1⟩).value = some v ∧
        quantile (1/40) (groupVals (centered [⟨0, some 1⟩]) (0 : ℕ)) = some ql ∧
        quantile (39/40) (groupVals (centered [⟨0, some 1⟩]) (0 : ℕ)) = some qh ∧
        (v < ql ∨ qh < v)) :=
  trim_drop_characterization [⟨0, some 1⟩] ⟨0, some 1⟩ (by decide)

end ML4H

namespace ML4H

lemma missingSum_le_groupCount (data : List Row) (h : ℕ) :
    missingSum data h ≤ groupCount data h := by
  rw [missingSum, groupCount]
  induction hourRows data h with
  | nil => exact Nat.le_refl 0
  | cons r t ih =>
    rw [List.map_cons, List.sum_cons, List.length_cons]
    cases hvn : r.value.isNone
    · rw [if_neg Bool.false_ne_true]
      omega
    · rw [if_pos rfl]
      omega

lemma missingSum_eq_groupCount_of_all_missing (data : List Row) (h : ℕ)
    (hall : ∀ r ∈ data, r.value = none) :
    missingSum data h = groupCount data h := by
  rw [missingSum, groupCount]
  have hall2 : ∀ r ∈ hourRows data h, r.value = none := by
    intro r hrr
    exact hall r (List.mem_filter.1 hrr).1
  revert hall2
  generalize hourRows data h = l
  induction l with
  | nil => intro _; rfl
  | cons r t ih =>
    intro hall2
    rw [List.map_cons, List.sum_cons, List.length_cons]
    have h1 : r.value = none := hall2 r (List.mem_cons_self _ _)
    have h2 : r.value.isNone = true := by
      rw [h1]
      rfl
    rw [if_pos h2, ih (fun x hx => hall2 x (List.mem_cons_of_mem _ hx))]
    omega

/-- C5: for every hour group present in the table, the missing fraction
computed by `missingHeatMap` divides the missing count by a group size of at
least 1 and lies in the closed interval from 0 to 1; if the variable is
entirely missing the fraction is exactly 1. -/
theorem pct_missing_in_unit_interval (data : List Row) (h : ℕ)
    (hmem : ∃ r ∈ data, r.hour = h) :
    1 ≤ groupCount data h ∧ 0 ≤ pctMissing data h ∧ pctMissing data h ≤ 1 ∧
      ((∀ r ∈ data, r.value = none) → pctMissing data h = 1) := by
  obtain ⟨r, hr, hh⟩ := hmem
  have hrg : r ∈ hourRows data h := by
    rw [hourRows]
    exact List.mem_filter.2 ⟨hr, by simp [hh]⟩
  have hcount : 1 ≤ groupCount data h := by
    rw [groupCount]
    exact List.length_pos.2 (List.ne_nil_of_mem hrg)
  have hcpos : (0 : ℚ) < (groupCount data h : ℚ) := by
    exact_mod_cast hcount
  have hsle : (missingSum data h : ℚ) ≤ (groupCount data h : ℚ) := by
    exact_mod_cast missingSum_le_groupCount data h
  refine ⟨hcount, ?_, ?_, ?_⟩
  · rw [pctMissing]
    positivity
  · rw [pctMissing]
    rw [div_le_one hcpos]
    exact hsle
  · intro hall
    rw [pctMissing, missingSum_eq_groupCount_of_all_missing data h hall]
    exact div_self (ne_of_gt hcpos)

/-- Witness for C5 at a concrete one-row, all-missing table. -/
theorem pct_missing_in_unit_interval_witness :
    1 ≤ groupCount [⟨0, none⟩] 0 ∧ 0 ≤ pctMissing [⟨0, none⟩] 0 ∧
      pctMissing [⟨0, none⟩] 0 ≤ 1 ∧
      ((∀ r ∈ [(⟨0, none⟩ : Row)], r.value = none) → pctMissing [⟨0, none⟩] 0 = 1) :=
  pct_missing_in_unit_interval [⟨0, none⟩] 0 ⟨⟨0, none⟩, by decide⟩

end ML4H

namespace ML4H

/-- C6: with all six partition files present, `loadData` returns the ordered
list of exactly three feature/label table pairs, the i-th pair read from the
files of the i-th partition name in the order a, b, c. -/
theorem loadData_three_ordered_pairs {α : Type} (fs : String → Option α) (dataDir : String)
    (fa la fb lb fc lc : α)
    (h1 : fs (featuresPath dataDir "a") = some fa)
    (h2 : fs (labelsPath dataDir "a") = some la)
    (h3 : fs (featuresPath dataDir "b") = some fb)
    (h4 : fs (labelsPath dataDir "b") = some lb)
    (h5 : fs (featuresPath dataDir "c") = some fc)
    (h6 : fs (labelsPath dataDir "c") = some lc) :
    loadData fs dataDir = Except.ok [(fa, la), (fb, lb), (fc, lc)] := by
  rw [loadData, partitionNames]
  simp [loadDataAux, read_parquet, h1, h2, h3, h4, h5, h6]
  rfl

/-- A concrete file system holding all six partition files. -/
def fsEx : String → Option ℕ := fun p =>
  if p = "data/set-a.parquet.gzip" then some 1
  else if p = "data/set-a-outcomes.parquet.gzip" then some 2
  else if p = "data/set-b.parquet.gzip" then some 3
  else if p = "data/set-b-outcomes.parquet.gzip" then some 4
  else if p = "data/set-c.parquet.gzip" then some 5
  else if p = "data/set-c-outcomes.parquet.gzip" then some 6
  else none

/-- Witness for C6 on the concrete file system. -/
theorem loadData_three_ordered_pairs_witness :
    loadData fsEx "data" = Except.ok [(1, 2), (3, 4), (5, 6)] :=
  loadData_three_ordered_pairs fsEx "data" 1 2 3 4 5 6 rfl rfl rfl rfl rfl rfl

lemma loadDataAux_error {α : Type} (fs : String → Option α) (dataDir : String)
    (names : List String)
    (hmiss : ∃ s ∈ names,
      fs (featuresPath dataDir s) = none ∨ fs (labelsPath dataDir s) = none) :
    ∃ e, loadDataAux fs dataDir names = Except.error e := by
  induction names with
  | nil =>
    obtain ⟨s, hs, -⟩ := hmiss
    cases hs
  | cons s rest ih =>
    rcases hmiss with ⟨t, ht, hmt⟩
    rcases List.mem_cons.1 ht with rfl | htr
    · rcases hmt with hf | hl
      · refine ⟨"FileNotFoundError: " ++ featuresPath dataDir t, ?_⟩
        simp [loadDataAux, read_parquet, hf]
        rfl
      · cases hffs : fs (featuresPath dataDir t) with
        | none =>
          refine ⟨"FileNotFoundError: " ++ featuresPath dataDir t, ?_⟩
          simp [loadDataAux, read_parquet, hffs]
          rfl
        | some f =>
          refine ⟨"FileNotFoundError: " ++ labelsPath dataDir t, ?_⟩
          simp [loadDataAux, read_parquet, hffs, hl]
          rfl
    · cases hffs : fs (featuresPath dataDir s) with
      | none =>
        refine ⟨"FileNotFoundError: " ++ featuresPath dataDir s, ?_⟩
        simp [loadDataAux, read_parquet, hffs]
        rfl
      | some f =>
        cases hlfs : fs (labelsPath dataDir s) with
        | none =>
          refine ⟨"FileNotFoundError: " ++ labelsPath dataDir s, ?_⟩
          simp [loadDataAux, read_parquet, hffs, hlfs]
          rfl
        | some l =>
          obtain ⟨e, he⟩ := ih ⟨t, htr, hmt⟩
          refine ⟨e, ?_⟩
          simp [loadDataAux, read_parquet, hffs, hlfs, he]
          rfl

/-- C3: if the feature file or the label file of any partition is absent, the
whole load aborts with a FileNotFound error and no list of table pairs, not
even a partial one, is returned. -/
theorem loadData_missing_file_aborts {α : Type} (fs : String → Option α) (dataDir : String)
    (hmiss : ∃ s ∈ partitionNames,
      fs (featuresPath dataDir s) = none ∨ fs (labelsPath dataDir s) = none) :
    ∃ e, loadData fs dataDir = Except.error e :=
  loadDataAux_error fs dataDir partitionNames hmiss

/-- Witness for C3 on the empty file system. -/
theorem loadData_missing_file_aborts_witness :
    ∃ e, loadData (fun _ : String => (none : Option ℕ)) "data" = Except.error e :=
  loadData_missing_file_aborts (fun _ : String => (none : Option ℕ)) "data"
    ⟨"a", by decide, Or.inl rfl⟩

end ML4H

namespace ML4H

/-- C2 counterexample: on a table whose single observation is missing, every
trimmed value is missing, and the computed axis bound is NaN (the all-NaN
pandas max is NaN and `np.max` propagates it), not the 0.05 floor: the
`set_ylim` call receives NaN instead of a non-degenerate frame. -/
theorem yAbsMax_all_missing_is_nan :
    (∀ r ∈ trimmed [(⟨0, none⟩ : Row)], r.value = none) ∧
      yAbsMax [(⟨0, none⟩ : Row)] ≠ some (1/20) ∧
      yAbsMax [(⟨0, none⟩ : Row)] = none := by
  refine ⟨by decide, ?_, by decide⟩
  intro hcontra
  have hn : yAbsMax [(⟨0, none⟩ : Row)] = none := by decide
  rw [hn] at hcontra
  cases hcontra

/-- C2 amended: whenever the trimmed frame retains at least one non-missing
centered value, the symmetric axis bound is the maximum of the 0.05 floor and
the largest retained absolute centered deviation; when every retained value is
missing the bound is NaN (`none`), not the 0.05 floor. -/
theorem yAbsMax_max_retained_abs (data : List Row) (r0 : Row) (v0 : ℚ)
    (h0 : r0 ∈ trimmed data) (hv0 : r0.value = some v0) :
    ∃ m, yAbsMax data = some (max m (1/20)) ∧
      (∃ r ∈ trimmed data, r.value.map (fun v => |v|) = some m) ∧
      (∀ r ∈ trimmed data, ∀ v : ℚ, r.value = some v → |v| ≤ m) := by
  have habs : (some |v0| : Option ℚ) ∈ (trimmed data).map (fun r => r.value.map (fun v => |v|)) :=
    List.mem_map.2 ⟨r0, h0, by rw [hv0]; rfl⟩
  have hmem2 : |v0| ∈ ((trimmed data).map (fun r => r.value.map (fun v => |v|))).filterMap id :=
    List.mem_filterMap.2 ⟨some |v0|, habs, rfl⟩
  cases hfm : ((trimmed data).map (fun r => r.value.map (fun v => |v|))).filterMap id with
  | nil =>
    rw [hfm] at hmem2
    cases hmem2
  | cons w ws =>
    refine ⟨ws.foldl max w, ?_, ?_, ?_⟩
    · rw [yAbsMax]
      have hsm : seriesMax ((trimmed data).map (fun r => r.value.map (fun v => |v|)))
          = some (ws.foldl max w) := by
        rw [seriesMax, hfm]
      rw [hsm]
      rfl
    · have hmm := foldl_max_mem ws w
      rw [← hfm] at hmm
      obtain ⟨ov, hovL, hov⟩ := List.mem_filterMap.1 hmm
      obtain ⟨r, hrt, hreq⟩ := List.mem_map.1 hovL
      refine ⟨r, hrt, ?_⟩
      rw [hreq]
      exact hov
    · intro r hrt v hrv
      have hL : (some |v| : Option ℚ) ∈ (trimmed data).map (fun r => r.value.map (fun v => |v|)) :=
        List.mem_map.2 ⟨r, hrt, by rw [hrv]; rfl⟩
      have hin : |v| ∈ ((trimmed data).map (fun r => r.value.map (fun v => |v|))).filterMap id :=
        List.mem_filterMap.2 ⟨some |v|, hL, rfl⟩
      rw [hfm] at hin
      exact foldl_max_le hin

/-- Witness for the amended C2 at a concrete one-row table whose single value
is retained (it is its own hour median, so its centered value 0 survives the
trim). -/
theorem yAbsMax_max_retained_abs_witness :
    ∃ m, yAbsMax [(⟨0, some 5⟩ : Row)] = some (max m (1/20)) ∧
      (∃ r ∈ trimmed [(⟨0, some 5⟩ : Row)], r.value.map (fun v => |v|) = some m) ∧
      (∀ r ∈ trimmed [(⟨0, some 5⟩ : Row)], ∀ v : ℚ, r.value = some v → |v| ≤ m) := by
  have hg : groupVals [(⟨0, some 5⟩ : Row)] 0 = [5] := rfl
  have hmed : median [(5 : ℚ)] = some 5 := by
    rw [median, quantile, if_neg (by simp)]
    norm_num [sortQ, interpAt, List.insertionSort, List.orderedInsert]
  have hcent : centered [(⟨0, some 5⟩ : Row)] = [⟨0, some 0⟩] := by
    simp only [centered, List.map_cons, List.map_nil, centerRow, hg, hmed]
    norm_num
  have hgc : groupVals (centered [(⟨0, some 5⟩ : Row)]) 0 = [0] := by
    rw [hcent]
    rfl
  have hql : quantile (1/40) [(0 : ℚ)] = some 0 := by
    rw [quantile, if_neg (by simp)]
    norm_num [sortQ, interpAt, List.insertionSort, List.orderedInsert]
  have hqh : quantile (39/40) [(0 : ℚ)] = some 0 := by
    rw [quantile, if_neg (by simp)]
    norm_num [sortQ, interpAt, List.insertionSort, List.orderedInsert]
  have hkeep : keepRow (centered [(⟨0, some 5⟩ : Row)]) ⟨0, some 0⟩ = true := by
    rw [keepRow]
    simp only [hgc, hql, hqh]
    norm_num
  have hmem : (⟨0, some 0⟩ : Row) ∈ trimmed [(⟨0, some 5⟩ : Row)] := by
    rw [trimmed, hcent, List.filter_cons]
    rw [hcent] at hkeep
    rw [hkeep]
    simp
  exact yAbsMax_max_retained_abs [(⟨0, some 5⟩ : Row)] ⟨0, some 0⟩ 0 hmem rfl

end ML4H

namespace ML4H

/-- C7: both renderer bodies leave the caller's table unchanged: the first
statement of each body deep-copies the projected table, every later
assignment writes the working copy or a fresh grouped frame, and the `data`
binding after the last statement still holds exactly the table passed in. -/
theorem renderers_leave_input_unchanged (data : List Row) :
    (boxplotPipeline data).data = data ∧ (heatPipeline data).data = data :=
  ⟨rfl, rfl⟩

/-- C8 counterexample: a concrete successful run of the loader emits no log
record at all, because the body of `loadData` contains no logging call; this
contradicts the claim that every execution of the loader emits debug-level
records tracing its load operations. -/
theorem loadDataRun_emits_no_records :
    (loadDataRun fsEx "data").2 = [] :=
  rfl

/-- C8 amended: each run recreates (rather than appends to) the log file: the
setup cell installs a file handler on the fixed log path in truncating mode
"w" at debug level 10; the dataset loader itself emits no log record, and
apart from the file-system reads its run is determined by its return value. -/
theorem log_recreated_and_loader_silent (logDir : String) :
    (setupFileHandler logDir).mode = "w" ∧
      (setupFileHandler logDir).level = 10 ∧
      (setupFileHandler logDir).path = logDir ++ "/" ++ "data-exploration.log" ∧
      ∀ (α : Type) (fs : String → Option α) (dataDir : String),
        (loadDataRun fs dataDir).2 = [] ∧
          (loadDataRun fs dataDir).1 = loadData fs dataDir :=
  ⟨rfl, rfl, rfl, fun _ _ _ => ⟨rfl, rfl⟩⟩

/-- C9: the stacked entry points fail on every variable list shorter than
two: with a single variable the per-variable lookup subscripts the bare axes
object returned under `squeeze=True`, and with no variable the layout
adjustment divides by the zero variable count. -/
theorem stacked_entry_points_fail_short (dataOf : String → List Row) (vars : List String)
    (hlt : vars.length < 2) :
    (∃ e, boxPlotTimeSeriesMultiple dataOf vars = Except.error e) ∧
      (∃ e, missingHeatMapMultiple dataOf vars = Except.error e) := by
  rcases vars with _ | ⟨v, _ | ⟨w, t⟩⟩
  · exact ⟨⟨"ZeroDivisionError: division by zero", rfl⟩,
      ⟨"ZeroDivisionError: division by zero", rfl⟩⟩
  · exact ⟨⟨"TypeError: Axes object is not subscriptable", rfl⟩,
      ⟨"TypeError: Axes object is not subscriptable", rfl⟩⟩
  · rw [List.length_cons, List.length_cons] at hlt
    omega

/-- Witness for C9 at a concrete one-variable call. -/
theorem stacked_entry_points_fail_short_witness :
    (∃ e, boxPlotTimeSeriesMultiple (fun _ => ([] : List Row)) ["x"] = Except.error e) ∧
      (∃ e, missingHeatMapMultiple (fun _ => ([] : List Row)) ["x"] = Except.error e) :=
  stacked_entry_points_fail_short (fun _ => []) ["x"] (by decide)

end ML4H

namespace ML4H

/-! Coherence of the two views of `boxplotTimeSeries`: the statement-by-
statement pipeline of the frame-effect model computes, in its working frame,
exactly the centered-and-trimmed frame used by the row-level theorems. -/

/-- Projection of a working-frame row back to its Hour/value columns. -/
def projRow (r : DfRow) : Row :=
  ⟨r.hour, r.value⟩

lemma dfGroupVals_map (l : List Row) (g : Row → DfRow) (h : ℕ)
    (hg1 : ∀ r, (g r).hour = r.hour) (hg2 : ∀ r, (g r).value = r.value) :
    dfGroupVals (l.map g) h = groupVals l h := by
  rw [dfGroupVals, groupVals]
  induction l with
  | nil => rfl
  | cons r t ih =>
    rw [List.map_cons, List.filter_cons, List.filter_cons, hg1 r]
    by_cases hc : (r.hour == h) = true
    · rw [if_pos hc, if_pos hc, List.filterMap_cons, List.filterMap_cons, hg2 r, ih]
    · rw [if_neg hc, if_neg hc]
      exact ih

lemma centerRow_value (data : List Row) (r : Row) :
    (centerRow data r).value =
      match r.value, median (groupVals data r.hour) with
      | some v, some m => some (v - m)
      | _, _ => none := by
  rcases hv : r.value with _ | v <;>
    rcases hm : median (groupVals data r.hour) with _ | m <;>
      simp [centerRow, hv, hm]

end ML4H

namespace ML4H

lemma filter_map_proj (l : List Row) (g : Row → DfRow) (p : DfRow → Bool)
    (hg : ∀ r, projRow (g r) = r) :
    ((l.map g).filter p).map projRow = l.filter (fun r => p (g r)) := by
  induction l with
  | nil => rfl
  | cons r t ih =>
    rw [List.map_cons, List.filter_cons, List.filter_cons]
    by_cases hc : p (g r) = true
    · rw [if_pos hc, if_pos hc, List.map_cons, hg r, ih]
    · rw [if_neg hc, if_neg hc, ih]

/-- The working frame left behind by the boxplot pipeline projects, on its
Hour/value columns, to exactly the centered-and-trimmed frame that the
row-level theorems describe: the two views of `boxplotTimeSeries` agree. -/
theorem boxplotPipeline_df_projects_to_trimmed (data : List Row) :
    (boxplotPipeline data).df.map projRow = trimmed data := by
  have hcopy : (boxplotCopy data).df
      = data.map (fun r => (⟨r.hour, r.value, none, none⟩ : DfRow)) := rfl
  have hg0 : ∀ x, dfGroupVals ((boxplotCopy data).df) x = groupVals data x := by
    intro x
    rw [hcopy]
    exact dfGroupVals_map data _ x (fun _ => rfl) (fun _ => rfl)
  have hcenter : (boxplotCenter (boxplotCopy data)).df
      = (centered data).map (fun r => (⟨r.hour, r.value, none, none⟩ : DfRow)) := by
    simp only [boxplotCenter, hg0]
    rw [hcopy, centered, List.map_map, List.map_map]
    apply List.map_congr_left
    intro r hr
    rcases hv : r.value with _ | v <;>
      rcases hm : median (groupVals data r.hour) with _ | m <;>
        simp [centerRow, hv, hm]
  have hg1 : ∀ x, dfGroupVals ((boxplotCenter (boxplotCopy data)).df) x
      = groupVals (centered data) x := by
    intro x
    rw [hcenter]
    exact dfGroupVals_map _ _ x (fun _ => rfl) (fun _ => rfl)
  have hqlow : (boxplotQuantileLow (boxplotCenter (boxplotCopy data))).df
      = (centered data).map (fun r => (⟨r.hour, r.value,
          quantile (1/40) (groupVals (centered data) r.hour), none⟩ : DfRow)) := by
    simp only [boxplotQuantileLow, hg1]
    rw [hcenter, List.map_map]
    rfl
  have hg2 : ∀ x, dfGroupVals ((boxplotQuantileLow (boxplotCenter (boxplotCopy data))).df) x
      = groupVals (centered data) x := by
    intro x
    rw [hqlow]
    exact dfGroupVals_map _ _ x (fun _ => rfl) (fun _ => rfl)
  have hqhigh : (boxplotQuantileHigh (boxplotQuantileLow (boxplotCenter (boxplotCopy data)))).df
      = (centered data).map (fun r => (⟨r.hour, r.value,
          quantile (1/40) (groupVals (centered data) r.hour),
          quantile (39/40) (groupVals (centered data) r.hour)⟩ : DfRow)) := by
    simp only [boxplotQuantileHigh, hg2]
    rw [hqlow, List.map_map]
    rfl
  show ((boxplotQuantileHigh (boxplotQuantileLow (boxplotCenter (boxplotCopy data)))).df.filter
      _).map projRow = trimmed data
  rw [hqhigh, filter_map_proj (centered data)
    (fun r => (⟨r.hour, r.value, quantile (1/40) (groupVals (centered data) r.hour),
      quantile (39/40) (groupVals (centered data) r.hour)⟩ : DfRow)) _ (fun _ => rfl), trimmed]
  apply List.filter_congr
  intro r hr
  rcases hv : r.value with _ | v
  · rw [keepRow_none hv]
    simp only [hv, Option.isNone_none, Bool.true_or]
  · rcases hql : quantile (1/40) (groupVals (centered data) r.hour) with _ | ql
    · simp only [keepRow, hv, hql, Option.isNone_some, Bool.false_or, Bool.false_and]
    · rcases hqh : quantile (39/40) (groupVals (centered data) r.hour) with _ | qh
      · simp only [keepRow, hv, hql, hqh, Option.isNone_some, Bool.false_or, Bool.and_false]
      · simp only [keepRow, hv, hql, hqh, Option.isNone_some, Bool.false_or]
        by_cases h1 : ql ≤ v <;> by_cases h2 : v ≤ qh <;> simp [h1, h2]

end ML4H

namespace ML4H

/-- The concrete scenario table of the specification: variable values 10, 12,
100 at hour 0 and 20, 22 at hour 1. -/
def scenarioTable : List Row :=
  [⟨0, some 10⟩, ⟨0, some 12⟩, ⟨0, some 100⟩, ⟨1, some 20⟩, ⟨1, some 22⟩]

/-- Sanity check of the embedding on the concrete scenario: the hour-0 median
is 12 and the centered hour-0 values are -2, 0, 88 as the specification
expects; resolving its open question about the exact linear-interpolation
quantiles, the hour-0 band is from -19/10 to 418/5 and the hour-1 band is
from -19/20 to 19/20, so the trim drops both hour-0 outliers and, in the
two-point hour group, both observations, keeping only the centered 0. -/
theorem scenario_medians_and_trim :
    median (groupVals scenarioTable 0) = some 12 ∧
      median (groupVals scenarioTable 1) = some 21 ∧
      centered scenarioTable =
        [⟨0, some (-2)⟩, ⟨0, some 0⟩, ⟨0, some 88⟩, ⟨1, some (-1)⟩, ⟨1, some 1⟩] ∧
      quantile (1/40) (groupVals (centered scenarioTable) 0) = some (-19/10) ∧
      quantile (39/40) (groupVals (centered scenarioTable) 0) = some (418/5) ∧
      trimmed scenarioTable = [⟨0, some 0⟩] := by
  have hg0 : groupVals scenarioTable 0 = [10, 12, 100] := rfl
  have hg1 : groupVals scenarioTable 1 = [20, 22] := rfl
  have hmed0 : median [(10 : ℚ), 12, 100] = some 12 := by
    rw [median, quantile, if_neg (by simp)]
    norm_num [sortQ, interpAt, List.insertionSort, List.orderedInsert]
  have hmed1 : median [(20 : ℚ), 22] = some 21 := by
    rw [median, quantile, if_neg (by simp)]
    norm_num [sortQ, interpAt, List.insertionSort, List.orderedInsert]
  have hS : scenarioTable
      = [⟨0, some 10⟩, ⟨0, some 12⟩, ⟨0, some 100⟩, ⟨1, some 20⟩, ⟨1, some 22⟩] := rfl
  have hcent : centered scenarioTable =
      [⟨0, some (-2)⟩, ⟨0, some 0⟩, ⟨0, some 88⟩, ⟨1, some (-1)⟩, ⟨1, some 1⟩] := by
    rw [centered]
    nth_rewrite 2 [hS]
    simp only [List.map_cons, List.map_nil, centerRow, hg0, hg1, hmed0, hmed1]
    norm_num
  have hql0 : quantile (1/40) [(-2 : ℚ), 0, 88] = some (-19/10) := by
    rw [quantile, if_neg (by simp)]
    norm_num [sortQ, interpAt, List.insertionSort, List.orderedInsert]
  have hqh0 : quantile (39/40) [(-2 : ℚ), 0, 88] = some (418/5) := by
    rw [quantile, if_neg (by simp)]
    norm_num [sortQ, interpAt, List.insertionSort, List.orderedInsert]
  have hql1 : quantile (1/40) [(-1 : ℚ), 1] = some (-19/20) := by
    rw [quantile, if_neg (by simp)]
    norm_num [sortQ, interpAt, List.insertionSort, List.orderedInsert]
  have hqh1 : quantile (39/40) [(-1 : ℚ), 1] = some (19/20) := by
    rw [quantile, if_neg (by simp)]
    norm_num [sortQ, interpAt, List.insertionSort, List.orderedInsert]
  have hgc0 : groupVals (centered scenarioTable) 0 = [-2, 0, 88] := by
    rw [hcent]
    rfl
  have hgc1 : groupVals (centered scenarioTable) 1 = [-1, 1] := by
    rw [hcent]
    rfl
  have hQl0 : quantile (1/40) (groupVals (centered scenarioTable) 0) = some (-19/10) := by
    rw [hgc0]
    exact hql0
  have hQh0 : quantile (39/40) (groupVals (centered scenarioTable) 0) = some (418/5) := by
    rw [hgc0]
    exact hqh0
  have hQl1 : quantile (1/40) (groupVals (centered scenarioTable) 1) = some (-19/20) := by
    rw [hgc1]
    exact hql1
  have hQh1 : quantile (39/40) (groupVals (centered scenarioTable) 1) = some (19/20) := by
    rw [hgc1]
    exact hqh1
  have hk1 : keepRow (centered scenarioTable) ⟨0, some (-2)⟩ = false := by
    rw [keepRow_some rfl hQl0 hQh0, decide_eq_false_iff_not]
    rintro ⟨h1, -⟩
    norm_num at h1
  have hk2 : keepRow (centered scenarioTable) ⟨0, some 0⟩ = true := by
    rw [keepRow_some rfl hQl0 hQh0, decide_eq_true_eq]
    norm_num
  have hk3 : keepRow (centered scenarioTable) ⟨0, some 88⟩ = false := by
    rw [keepRow_some rfl hQl0 hQh0, decide_eq_false_iff_not]
    rintro ⟨-, h2⟩
    norm_num at h2
  have hk4 : keepRow (centered scenarioTable) ⟨1, some (-1)⟩ = false := by
    rw [keepRow_some rfl hQl1 hQh1, decide_eq_false_iff_not]
    rintro ⟨h1, -⟩
    norm_num at h1
  have hk5 : keepRow (centered scenarioTable) ⟨1, some 1⟩ = false := by
    rw [keepRow_some rfl hQl1 hQh1, decide_eq_false_iff_not]
    rintro ⟨-, h2⟩
    norm_num at h2
  refine ⟨by rw [hg0]; exact hmed0, by rw [hg1]; exact hmed1, hcent, hQl0, hQh0, ?_⟩
  rw [trimmed]
  rw [show (centered scenarioTable).filter (keepRow (centered scenarioTable))
      = [⟨0, some (-2)⟩, ⟨0, some 0⟩, ⟨0, some 88⟩, ⟨1, some (-1)⟩,
          ⟨1, some 1⟩].filter (keepRow (centered scenarioTable)) from by rw [hcent]]
  simp only [List.filter_cons, List.filter_nil, hk1, hk2, hk3, hk4, hk5]
  rfl

end ML4H
